import Mathlib

/-!
Verification development for the encrypted password-manager core
("Keychain") of the Secure-Social-Media-Website repository.

The source file contains three divergent drafts of the `Keychain` class,
separated by `###` banner lines.  The claims reference the first draft
(lines 16-141, called `Keychain1` below) and the third draft
(lines 310-500, called `Keychain3` below); the middle draft is cited by
no claim and is not modelled.

The JavaScript runtime and the Node `crypto`/`Buffer` primitives the
drafts call into are embedded byte-for-byte where their behaviour is
observable (UTF-8, base64, hex, SHA-256, JSON serialization, truthiness
and prototype lookup), and symbolically where it is genuinely
cryptographic (PBKDF2 key derivation, AES encryption).
-/

/-! ## Association-list helpers (JavaScript own-property maps) -/

/-- Lookup of an own property in an insertion-ordered property list. -/
def alookup {α : Type} : List (String × α) → String → Option α
  | [], _ => none
  | (k', v) :: t, k => if k' = k then some v else alookup t k

/-- Property assignment: overwrite in place if the key exists (JavaScript
keeps the original insertion position on update), else append. -/
def aupsert {α : Type} : List (String × α) → String → α → List (String × α)
  | [], k, v => [(k, v)]
  | (k', v') :: t, k, v =>
    if k' = k then (k, v) :: t else (k', v') :: aupsert t k v

/-- Property deletion (JavaScript `delete obj[k]`). -/
def aerase {α : Type} (l : List (String × α)) (k : String) : List (String × α) :=
  l.filter (fun p => p.fst != k)

/-! ## Hexadecimal encoding (Node `Buffer.toString('hex')` / `Buffer.from(s,'hex')`) -/

def hexDigitTable : List Char := "0123456789abcdef".data

def hexChar (n : Nat) : Char := hexDigitTable.getD n '0'

/-- Value of a hex digit, accepting both cases as Node does. -/
def hexVal (c : Char) : Option Nat :=
  match hexDigitTable.indexOf? c with
  | some n => some n
  | none => "0123456789ABCDEF".data.indexOf? c

def bytesToHexChars (bs : List Nat) : List Char :=
  bs.flatMap (fun b => [hexChar (b / 16 % 16), hexChar (b % 16)])

/-- Node `buf.toString('hex')`. -/
def bytesToHex (bs : List Nat) : String := String.mk (bytesToHexChars bs)

/-- Node `Buffer.from(s, 'hex')` decodes hex pairs and stops silently at the
first invalid pair or lone trailing digit. -/
def hexPairsDecode : List Char → List Nat
  | c1 :: c2 :: rest =>
    match hexVal c1, hexVal c2 with
    | some h, some l => (h * 16 + l) :: hexPairsDecode rest
    | _, _ => []
  | _ => []

def hexToBytes (s : String) : List Nat := hexPairsDecode s.data

/-! ## Base64 (Node `Buffer.toString('base64')` / lib.js `encodeBuffer`/`decodeBuffer`) -/

def b64Table : List Char :=
  "ABCDEFGHIJKLMNOPQRSTUVWXYZabcdefghijklmnopqrstuvwxyz0123456789+/".data

def b64Char (n : Nat) : Char := b64Table.getD n 'A'

def b64Val (c : Char) : Option Nat := b64Table.indexOf? c

/-- Canonical padded base64 of a byte sequence. -/
def b64EncodeBytes : List Nat → List Char
  | b0 :: b1 :: b2 :: rest =>
    let n := b0 % 256 * 65536 + b1 % 256 * 256 + b2 % 256
    b64Char (n / 262144) :: b64Char (n / 4096 % 64) :: b64Char (n / 64 % 64) ::
      b64Char (n % 64) :: b64EncodeBytes rest
  | [b0, b1] =>
    let x := b0 % 256
    let y := b1 % 256
    [b64Char (x / 4), b64Char (x % 4 * 16 + y / 16), b64Char (y % 16 * 4), '=']
  | [b0] =>
    let x := b0 % 256
    [b64Char (x / 4), b64Char (x % 4 * 16), '=', '=']
  | [] => []

/-- Decoder core over the already-filtered alphabet characters. -/
def b64DecodeCore : List Char → List Nat
  | c0 :: c1 :: c2 :: c3 :: rest =>
    let s0 := (b64Val c0).getD 0
    let s1 := (b64Val c1).getD 0
    let s2 := (b64Val c2).getD 0
    let s3 := (b64Val c3).getD 0
    (s0 * 4 + s1 / 16) :: (s1 % 16 * 16 + s2 / 4) :: (s2 % 4 * 64 + s3) ::
      b64DecodeCore rest
  | [c0, c1, c2] =>
    let s0 := (b64Val c0).getD 0
    let s1 := (b64Val c1).getD 0
    let s2 := (b64Val c2).getD 0
    [s0 * 4 + s1 / 16, s1 % 16 * 16 + s2 / 4]
  | [c0, c1] =>
    let s0 := (b64Val c0).getD 0
    let s1 := (b64Val c1).getD 0
    [s0 * 4 + s1 / 16]
  | _ => []

/-- Node `Buffer.from(s, 'base64')`: non-alphabet characters (including the
padding `=`) are skipped, then sextets are recombined. -/
def b64DecodeLenient (s : String) : List Nat :=
  b64DecodeCore (s.data.filter (fun c => (b64Val c).isSome))

/-! ## UTF-8 (Node `Buffer.from(s, 'utf8')` / `buf.toString('utf8')`) -/

def utf8EncodeChar (c : Char) : List Nat :=
  if c.toNat < 128 then [c.toNat]
  else if c.toNat < 2048 then [192 + c.toNat / 64, 128 + c.toNat % 64]
  else if c.toNat < 65536 then
    [224 + c.toNat / 4096, 128 + c.toNat / 64 % 64, 128 + c.toNat % 64]
  else
    [240 + c.toNat / 262144, 128 + c.toNat / 4096 % 64, 128 + c.toNat / 64 % 64,
      128 + c.toNat % 64]

def utf8EncodeList (cs : List Char) : List Nat := cs.flatMap utf8EncodeChar

/-- The U+FFFD replacement character emitted by lenient decoders. -/
def replChar : Char := Char.ofNat 65533

/-- Decode one UTF-8 sequence starting at lead byte `b0`: the decoded
character (U+FFFD for a malformed sequence) and the unconsumed bytes. -/
def utf8DecodeOne (b0 : Nat) (rest : List Nat) : Char × List Nat :=
  if b0 < 128 then (Char.ofNat b0, rest)
  else if b0 < 192 then (replChar, rest)
  else if b0 < 224 then
    match rest with
    | b1 :: rest2 =>
      if 128 ≤ b1 ∧ b1 < 192 then
        let v := (b0 - 192) * 64 + (b1 - 128)
        if 128 ≤ v then (Char.ofNat v, rest2) else (replChar, rest)
      else (replChar, rest)
    | [] => (replChar, [])
  else if b0 < 240 then
    match rest with
    | b1 :: b2 :: rest3 =>
      if 128 ≤ b1 ∧ b1 < 192 ∧ 128 ≤ b2 ∧ b2 < 192 then
        let v := (b0 - 224) * 4096 + (b1 - 128) * 64 + (b2 - 128)
        if 2048 ≤ v ∧ ¬(55296 ≤ v ∧ v < 57344) then (Char.ofNat v, rest3)
        else (replChar, rest)
      else (replChar, rest)
    | [b1] => if 128 ≤ b1 ∧ b1 < 192 then (replChar, []) else (replChar, [b1])
    | [] => (replChar, [])
  else
    match rest with
    | b1 :: b2 :: b3 :: rest4 =>
      if 128 ≤ b1 ∧ b1 < 192 ∧ 128 ≤ b2 ∧ b2 < 192 ∧ 128 ≤ b3 ∧ b3 < 192 then
        let v := (b0 - 240) * 262144 + (b1 - 128) * 4096 + (b2 - 128) * 64 +
          (b3 - 128)
        if 65536 ≤ v ∧ v < 1114112 then (Char.ofNat v, rest4)
        else (replChar, rest)
      else (replChar, rest)
    | [b1, b2] =>
      if 128 ≤ b1 ∧ b1 < 192 ∧ 128 ≤ b2 ∧ b2 < 192 then (replChar, [])
      else (replChar, [b1, b2])
    | [b1] => if 128 ≤ b1 ∧ b1 < 192 then (replChar, []) else (replChar, [b1])
    | [] => (replChar, [])

theorem utf8DecodeOne_snd_le (b0 : Nat) (rest : List Nat) :
    (utf8DecodeOne b0 rest).2.length ≤ rest.length := by
  unfold utf8DecodeOne
  repeat' split
  all_goals (simp; try omega)
  all_goals (split <;> (simp; try omega))

/-- Lenient UTF-8 decoding: malformed sequences yield U+FFFD, as Node's
`buf.toString('utf8')` does. -/
def utf8DecodeList : List Nat → List Char
  | [] => []
  | b0 :: rest =>
    (utf8DecodeOne b0 rest).1 :: utf8DecodeList (utf8DecodeOne b0 rest).2
  termination_by bs => bs.length
  decreasing_by
    have h := utf8DecodeOne_snd_le b0 rest
    simp
    omega

/-- Modelled from the spec: lib.js, required by every draft but absent from
the sources, provides `stringToBuffer` converting a string to its bytes. -/
def stringToBuffer (s : String) : List Nat := utf8EncodeList s.data

/-- Modelled from the spec: lib.js `bufferToString`, bytes back to a string. -/
def bufferToString (bs : List Nat) : String := String.mk (utf8DecodeList bs)

/-- Modelled from the spec: lib.js `encodeBuffer`, base64 of a byte buffer
(the spec's SerializedBlob carries base64 fields). -/
def encodeBuffer (bs : List Nat) : String := String.mk (b64EncodeBytes bs)

/-- Modelled from the spec: lib.js `decodeBuffer`, base64 decoding. -/
def decodeBuffer (s : String) : List Nat := b64DecodeLenient s

/-! ## Round-trip lemmas for the byte codecs -/

theorem hexVal_hexChar : ∀ n, n < 16 → hexVal (hexChar n) = some n := by decide

theorem hexPairsDecode_encode (bs : List Nat) :
    hexPairsDecode (bytesToHexChars bs) = bs.map (fun b => b % 256) := by
  induction bs with
  | nil => rfl
  | cons b t ih =>
    have h1 : hexVal (hexChar (b / 16 % 16)) = some (b / 16 % 16) :=
      hexVal_hexChar _ (Nat.mod_lt _ (by omega))
    have h2 : hexVal (hexChar (b % 16)) = some (b % 16) :=
      hexVal_hexChar _ (Nat.mod_lt _ (by omega))
    have e : bytesToHexChars (b :: t) =
        hexChar (b / 16 % 16) :: hexChar (b % 16) :: bytesToHexChars t := by
      simp [bytesToHexChars]
    have hb : b / 16 % 16 * 16 + b % 16 = b % 256 := by omega
    rw [e]
    simp only [hexPairsDecode, h1, h2, List.map_cons]
    rw [hb, ih]

theorem hexToBytes_bytesToHex (bs : List Nat) :
    hexToBytes (bytesToHex bs) = bs.map (fun b => b % 256) := by
  simpa [hexToBytes, bytesToHex] using hexPairsDecode_encode bs

theorem bytesToHexChars_length (bs : List Nat) :
    (bytesToHexChars bs).length = 2 * bs.length := by
  induction bs with
  | nil => rfl
  | cons b t ih => simp [bytesToHexChars, List.flatMap_cons] at ih ⊢; omega

theorem b64Val_b64Char : ∀ n, n < 64 → b64Val (b64Char n) = some n := by decide

theorem b64Val_pad : b64Val '=' = none := by decide

theorem b64_filter_keep {n : Nat} (h : n < 64) :
    ((b64Val (b64Char n)).isSome = true) := by
  rw [b64Val_b64Char n h]; rfl

theorem b64DecodeCore_filter_encode (bs : List Nat) :
    b64DecodeCore ((b64EncodeBytes bs).filter (fun c => (b64Val c).isSome)) =
      bs.map (fun b => b % 256) := by
  induction bs using b64EncodeBytes.induct with
  | case1 b0 b1 b2 rest ih =>
    have hx : b0 % 256 < 256 := by omega
    have hy : b1 % 256 < 256 := by omega
    have hz : b2 % 256 < 256 := by omega
    set n := b0 % 256 * 65536 + b1 % 256 * 256 + b2 % 256 with hn
    have h0 : n / 262144 < 64 := by omega
    have h1 : n / 4096 % 64 < 64 := by omega
    have h2 : n / 64 % 64 < 64 := by omega
    have h3 : n % 64 < 64 := by omega
    have e : b64EncodeBytes (b0 :: b1 :: b2 :: rest) =
        b64Char (n / 262144) :: b64Char (n / 4096 % 64) :: b64Char (n / 64 % 64) ::
          b64Char (n % 64) :: b64EncodeBytes rest := by
      simp [b64EncodeBytes, hn]
    rw [e]
    simp only [List.filter_cons, b64_filter_keep h0, b64_filter_keep h1,
      b64_filter_keep h2, b64_filter_keep h3, if_true]
    simp only [b64DecodeCore, b64Val_b64Char _ h0, b64Val_b64Char _ h1,
      b64Val_b64Char _ h2, b64Val_b64Char _ h3, Option.getD_some, List.map_cons]
    rw [ih]
    have e0 : n / 262144 * 4 + n / 4096 % 64 / 16 = b0 % 256 := by omega
    have e1 : n / 4096 % 64 % 16 * 16 + n / 64 % 64 / 4 = b1 % 256 := by omega
    have e2 : n / 64 % 64 % 4 * 64 + n % 64 = b2 % 256 := by omega
    rw [e0, e1, e2]
  | case2 b0 b1 =>
    have hx : b0 % 256 < 256 := by omega
    have hy : b1 % 256 < 256 := by omega
    have h0 : b0 % 256 / 4 < 64 := by omega
    have h1 : b0 % 256 % 4 * 16 + b1 % 256 / 16 < 64 := by omega
    have h2 : b1 % 256 % 16 * 4 < 64 := by omega
    have e : b64EncodeBytes [b0, b1] =
        [b64Char (b0 % 256 / 4), b64Char (b0 % 256 % 4 * 16 + b1 % 256 / 16),
          b64Char (b1 % 256 % 16 * 4), '='] := by
      simp [b64EncodeBytes]
    rw [e]
    simp only [List.filter_cons, b64_filter_keep h0, b64_filter_keep h1,
      b64_filter_keep h2, b64Val_pad, if_true]
    simp only [Option.isSome_none, Bool.false_eq_true, if_false, List.filter_nil]
    simp only [b64DecodeCore, b64Val_b64Char _ h0, b64Val_b64Char _ h1,
      b64Val_b64Char _ h2, Option.getD_some, List.map_cons, List.map_nil]
    have e0 : b0 % 256 / 4 * 4 + (b0 % 256 % 4 * 16 + b1 % 256 / 16) / 16 = b0 % 256 := by
      omega
    have e1 : (b0 % 256 % 4 * 16 + b1 % 256 / 16) % 16 * 16 + b1 % 256 % 16 * 4 / 4 =
        b1 % 256 := by omega
    rw [e0, e1]
  | case3 b0 =>
    have hx : b0 % 256 < 256 := by omega
    have h0 : b0 % 256 / 4 < 64 := by omega
    have h1 : b0 % 256 % 4 * 16 < 64 := by omega
    have e : b64EncodeBytes [b0] =
        [b64Char (b0 % 256 / 4), b64Char (b0 % 256 % 4 * 16), '=', '='] := by
      simp [b64EncodeBytes]
    rw [e]
    simp only [List.filter_cons, b64_filter_keep h0, b64_filter_keep h1, b64Val_pad,
      if_true]
    simp only [Option.isSome_none, Bool.false_eq_true, if_false, List.filter_nil]
    simp only [b64DecodeCore, b64Val_b64Char _ h0, b64Val_b64Char _ h1,
      Option.getD_some, List.map_cons, List.map_nil]
    have e0 : b0 % 256 / 4 * 4 + b0 % 256 % 4 * 16 / 16 = b0 % 256 := by omega
    rw [e0]
  | case4 => rfl

theorem decodeBuffer_encodeBuffer (bs : List Nat) :
    decodeBuffer (encodeBuffer bs) = bs.map (fun b => b % 256) := by
  simpa [decodeBuffer, encodeBuffer, b64DecodeLenient] using
    b64DecodeCore_filter_encode bs

theorem charValLt (c : Char) : c.toNat < 1114112 := by
  rcases c.valid with h | ⟨h1, h2⟩
  · exact Nat.lt_trans h (by norm_num)
  · exact h2

theorem charNotSurrogate (c : Char) : c.toNat < 55296 ∨ 57343 < c.toNat := by
  rcases c.valid with h | ⟨h1, h2⟩
  · exact Or.inl h
  · exact Or.inr h1

theorem utf8DecodeOne_encodeChar (c : Char) (rest : List Nat) :
    ∃ b0 tl, utf8EncodeChar c = b0 :: tl ∧
      utf8DecodeOne b0 (tl ++ rest) = (c, rest) := by
  have hv := charValLt c
  have hs := charNotSurrogate c
  by_cases h1 : c.toNat < 128
  · refine ⟨c.toNat, [], ?_, ?_⟩
    · unfold utf8EncodeChar
      rw [if_pos h1]
    · unfold utf8DecodeOne
      rw [if_pos h1, Char.ofNat_toNat]
      rfl
  · by_cases h2 : c.toNat < 2048
    · refine ⟨192 + c.toNat / 64, [128 + c.toNat % 64], ?_, ?_⟩
      · unfold utf8EncodeChar
        rw [if_neg h1, if_pos h2]
      · unfold utf8DecodeOne
        rw [if_neg (by omega), if_neg (by omega), if_pos (by omega)]
        simp only [List.cons_append, List.nil_append]
        rw [if_pos (by omega), if_pos (by omega)]
        have ev : (192 + c.toNat / 64 - 192) * 64 + (128 + c.toNat % 64 - 128) =
            c.toNat := by omega
        rw [ev, Char.ofNat_toNat]
    · by_cases h3 : c.toNat < 65536
      · refine ⟨224 + c.toNat / 4096,
          [128 + c.toNat / 64 % 64, 128 + c.toNat % 64], ?_, ?_⟩
        · unfold utf8EncodeChar
          rw [if_neg h1, if_neg h2, if_pos h3]
        · unfold utf8DecodeOne
          rw [if_neg (by omega), if_neg (by omega), if_neg (by omega),
            if_pos (by omega)]
          simp only [List.cons_append, List.nil_append]
          rw [if_pos (by omega)]
          have ev : (224 + c.toNat / 4096 - 224) * 4096 +
              (128 + c.toNat / 64 % 64 - 128) * 64 + (128 + c.toNat % 64 - 128) =
              c.toNat := by omega
          rw [ev]
          rw [if_pos (by omega), Char.ofNat_toNat]
      · refine ⟨240 + c.toNat / 262144,
          [128 + c.toNat / 4096 % 64, 128 + c.toNat / 64 % 64, 128 + c.toNat % 64],
          ?_, ?_⟩
        · unfold utf8EncodeChar
          rw [if_neg h1, if_neg h2, if_neg h3]
        · unfold utf8DecodeOne
          rw [if_neg (by omega), if_neg (by omega), if_neg (by omega),
            if_neg (by omega)]
          simp only [List.cons_append, List.nil_append]
          rw [if_pos (by omega)]
          have ev : (240 + c.toNat / 262144 - 240) * 262144 +
              (128 + c.toNat / 4096 % 64 - 128) * 4096 +
              (128 + c.toNat / 64 % 64 - 128) * 64 + (128 + c.toNat % 64 - 128) =
              c.toNat := by omega
          rw [ev]
          rw [if_pos (by omega), Char.ofNat_toNat]

theorem utf8DecodeList_encodeChar (c : Char) (rest : List Nat) :
    utf8DecodeList (utf8EncodeChar c ++ rest) = c :: utf8DecodeList rest := by
  obtain ⟨b0, tl, he, hd⟩ := utf8DecodeOne_encodeChar c rest
  rw [he, List.cons_append, utf8DecodeList, hd]

theorem utf8_roundtrip_list (cs : List Char) :
    utf8DecodeList (utf8EncodeList cs) = cs := by
  induction cs with
  | nil =>
    show utf8DecodeList [] = []
    rw [utf8DecodeList]
  | cons c t ih =>
    have e : utf8EncodeList (c :: t) = utf8EncodeChar c ++ utf8EncodeList t := by
      simp [utf8EncodeList]
    rw [e, utf8DecodeList_encodeChar, ih]

theorem bufferToString_stringToBuffer (s : String) :
    bufferToString (stringToBuffer s) = s := by
  rw [bufferToString, stringToBuffer, utf8_roundtrip_list]

theorem utf8EncodeChar_lt256 (c : Char) : ∀ b ∈ utf8EncodeChar c, b < 256 := by
  have hv := charValLt c
  intro b hb
  unfold utf8EncodeChar at hb
  split at hb
  · simp at hb; omega
  · split at hb
    · simp at hb; rcases hb with h | h <;> omega
    · split at hb
      · simp at hb; rcases hb with h | h | h <;> omega
      · simp at hb; rcases hb with h | h | h | h <;> omega

theorem utf8_bytes_lt256 (cs : List Char) : ∀ b ∈ utf8EncodeList cs, b < 256 := by
  intro b hb
  simp only [utf8EncodeList, List.mem_flatMap] at hb
  obtain ⟨c, _, hc⟩ := hb
  exact utf8EncodeChar_lt256 c b hc

theorem map_mod256_id (bs : List Nat) (h : ∀ b ∈ bs, b < 256) :
    bs.map (fun b => b % 256) = bs := by
  induction bs with
  | nil => rfl
  | cons b t ih =>
    have hb : b % 256 = b := Nat.mod_eq_of_lt (h b (by simp))
    simp only [List.map_cons, hb]
    rw [ih (fun x hx => h x (by simp [hx]))]

/-- Base64-decoding lib.js `decodeBuffer` inverts `encodeBuffer` on byte
sequences produced from strings. -/
theorem decodeBuffer_encodeBuffer_utf8 (s : String) :
    decodeBuffer (encodeBuffer (stringToBuffer s)) = stringToBuffer s := by
  rw [decodeBuffer_encodeBuffer]
  exact map_mod256_id _ (fun b hb => utf8_bytes_lt256 s.data b hb)

theorem b64EncodeBytes_length_mod4 (bs : List Nat) :
    (b64EncodeBytes bs).length % 4 = 0 := by
  induction bs using b64EncodeBytes.induct with
  | case1 b0 b1 b2 rest ih =>
    have e : (b64EncodeBytes (b0 :: b1 :: b2 :: rest)).length =
        4 + (b64EncodeBytes rest).length := by
      simp [b64EncodeBytes]
      omega
    omega
  | case2 b0 b1 => simp [b64EncodeBytes]
  | case3 b0 => simp [b64EncodeBytes]
  | case4 => rfl

theorem utf8EncodeChar_head_not_cont (c : Char) :
    ∀ b0 tl, utf8EncodeChar c = b0 :: tl → b0 < 128 ∨ 192 ≤ b0 := by
  have hv := charValLt c
  intro b0 tl he
  unfold utf8EncodeChar at he
  split at he
  · simp at he; omega
  · split at he
    · simp at he; omega
    · split at he
      · simp at he; omega
      · simp at he; omega

theorem b64EncodeBytes_head (b : Nat) (t : List Nat) :
    (b64EncodeBytes (b :: t)).head? = some (b64Char (b % 256 / 4)) := by
  match t with
  | b1 :: b2 :: rest =>
    have e : (b % 256 * 65536 + b1 % 256 * 256 + b2 % 256) / 262144 =
        b % 256 / 4 := by omega
    simp [b64EncodeBytes, e]
  | [b1] => simp [b64EncodeBytes]
  | [] => simp [b64EncodeBytes]

theorem b64Char_avoid : ∀ n, n < 64 → n < 32 ∨ 48 ≤ n →
    b64Char n ≠ 't' ∧ b64Char n ≠ 'p' := by decide

/-- The base64 encoding of the UTF-8 bytes of a nonempty string starts with a
character outside the range that encodes a UTF-8 continuation lead. -/
theorem encodeBuffer_utf8_head (c : Char) (cs : List Char) :
    ∃ n, n < 64 ∧ (n < 32 ∨ 48 ≤ n) ∧
      (b64EncodeBytes (utf8EncodeList (c :: cs))).head? = some (b64Char n) := by
  obtain ⟨b0, tl, he, _⟩ := utf8DecodeOne_encodeChar c []
  have hb0mem : b0 ∈ utf8EncodeChar c := by rw [he]; simp
  have hb0lt : b0 < 256 := utf8EncodeChar_lt256 c b0 hb0mem
  have hb0nc := utf8EncodeChar_head_not_cont c b0 tl he
  have e1 : utf8EncodeList (c :: cs) = utf8EncodeChar c ++ utf8EncodeList cs := by
    simp [utf8EncodeList]
  refine ⟨b0 / 4, by omega, by omega, ?_⟩
  rw [e1, he, List.cons_append, b64EncodeBytes_head, Nat.mod_eq_of_lt hb0lt]

/-! ## JavaScript values, truthiness, and prototype lookup -/

/-- JSON data as produced by `JSON.parse` / consumed by `JSON.stringify`. -/
inductive Json where
  | null
  | bool (b : Bool)
  | num (n : Int)
  | str (s : String)
  | arr (xs : List Json)
  | obj (fields : List (String × Json))

instance : Inhabited Json := ⟨Json.null⟩

/-- Result of a JavaScript property read: absent (`undefined`), a data value,
or a built-in inherited from a prototype (functions such as
`Array.prototype.constructor`, or the `__proto__` object itself). -/
inductive JsVal where
  | undefined
  | jval (j : Json)
  | builtin (name : String)

instance : Inhabited JsVal := ⟨JsVal.undefined⟩

/-- JavaScript truthiness of a JSON value. -/
def jsonTruthy : Json → Bool
  | .null => false
  | .bool b => b
  | .num n => n != 0
  | .str s => s ≠ ""
  | .arr _ => true
  | .obj _ => true

/-- JavaScript truthiness of a property-read result: `undefined` is falsy and
built-in functions/objects are truthy. -/
def jsTruthy : JsVal → Bool
  | .undefined => false
  | .jval j => jsonTruthy j
  | .builtin _ => true

/-- Own properties of `Object.prototype`, inherited by every plain object
(and, transitively, by arrays): reading one of these names on an "empty"
object yields a function (or, for `__proto__`, an object), not `undefined`. -/
def objProtoProps : List String :=
  ["constructor", "hasOwnProperty", "isPrototypeOf", "propertyIsEnumerable",
    "toLocaleString", "toString", "valueOf", "__proto__"]

/-- Own function-valued properties of `Array.prototype` (a representative
subset; `constructor` is the one the claims exercise), consulted before
`Object.prototype` when the receiver is an array. -/
def arrayProtoProps : List String :=
  ["constructor", "at", "concat", "copyWithin", "fill", "find", "findIndex",
    "lastIndexOf", "pop", "push", "reverse", "shift", "unshift", "slice",
    "sort", "splice", "includes", "indexOf", "join", "keys", "entries",
    "values", "forEach", "filter", "flat", "flatMap", "map", "every", "some",
    "reduce", "reduceRight", "toReversed", "toSorted", "toSpliced", "toString",
    "toLocaleString"]

/-- Prototype-chain lookup for a plain object receiver. -/
def objProtoLookup (k : String) : JsVal :=
  if k ∈ objProtoProps then .builtin k else .undefined

/-- Prototype-chain lookup for an array receiver (`Array.prototype`, then
`Object.prototype`). -/
def arrayProtoLookup (k : String) : JsVal :=
  if k ∈ arrayProtoProps then .builtin k else objProtoLookup k

/-- The base64 encoding of the UTF-8 bytes of any string collides with no
`Object.prototype` property name, so draft 3's base64-keyed records never
shadow or hit an inherited property. -/
theorem encodeBuffer_utf8_notin_objProtoProps (s : String) :
    ∀ p ∈ objProtoProps, encodeBuffer (stringToBuffer s) ≠ p := by
  intro p hp heq
  have hdata : b64EncodeBytes (utf8EncodeList s.data) = p.data :=
    congrArg String.data heq
  rcases hs : s.data with _ | ⟨c, cs⟩
  · rw [hs] at hdata
    have e0 : b64EncodeBytes (utf8EncodeList []) = [] := by
      simp [utf8EncodeList, b64EncodeBytes]
    rw [e0] at hdata
    simp only [objProtoProps, List.mem_cons, List.not_mem_nil, or_false] at hp
    rcases hp with rfl | rfl | rfl | rfl | rfl | rfl | rfl | rfl
    all_goals exact absurd hdata (by decide)
  · rw [hs] at hdata
    obtain ⟨n, hn64, hnav, hh⟩ := encodeBuffer_utf8_head c cs
    have hph : p.data.head? = some (b64Char n) := by rw [← hdata]; exact hh
    have hplen : p.data.length % 4 = 0 := by
      rw [← hdata]; exact b64EncodeBytes_length_mod4 _
    have hne := b64Char_avoid n hn64 hnav
    simp only [objProtoProps, List.mem_cons, List.not_mem_nil, or_false] at hp
    rcases hp with rfl | rfl | rfl | rfl | rfl | rfl | rfl | rfl
    · exact absurd hplen (by decide)
    · exact absurd hplen (by decide)
    · exact absurd hplen (by decide)
    · have e : ("propertyIsEnumerable".data.head?) = some 'p' := rfl
      rw [e] at hph
      injection hph with h
      exact hne.2 h.symm
    · exact absurd hplen (by decide)
    · have e : ("toString".data.head?) = some 't' := rfl
      rw [e] at hph
      injection hph with h
      exact hne.1 h.symm
    · exact absurd hplen (by decide)
    · exact absurd hplen (by decide)

/-! ## SHA-256 (Node `crypto.createHash('sha256')`) -/

def rotr32 (n x : Nat) : Nat :=
  (x / 2 ^ n + x % 2 ^ n * 2 ^ (32 - n)) % 4294967296

def shr32 (n x : Nat) : Nat := x / 2 ^ n

def not32 (x : Nat) : Nat := 4294967295 - x % 4294967296

def smallSigma0 (x : Nat) : Nat := rotr32 7 x ^^^ rotr32 18 x ^^^ shr32 3 x

def smallSigma1 (x : Nat) : Nat := rotr32 17 x ^^^ rotr32 19 x ^^^ shr32 10 x

def bigSigma0 (x : Nat) : Nat := rotr32 2 x ^^^ rotr32 13 x ^^^ rotr32 22 x

def bigSigma1 (x : Nat) : Nat := rotr32 6 x ^^^ rotr32 11 x ^^^ rotr32 25 x

def sha256K : List Nat :=
  [1116352408, 1899447441, 3049323471, 3921009573, 961987163, 1508970993,
   2453635748, 2870763221, 3624381080, 310598401, 607225278, 1426881987,
   1925078388, 2162078206, 2614888103, 3248222580, 3835390401, 4022224774,
   264347078, 604807628, 770255983, 1249150122, 1555081692, 1996064986,
   2554220882, 2821834349, 2952996808, 3210313671, 3336571891, 3584528711,
   113926993, 338241895, 666307205, 773529912, 1294757372, 1396182291,
   1695183700, 1986661051, 2177026350, 2456956037, 2730485921, 2820302411,
   3259730800, 3345764771, 3516065817, 3600352804, 4094571909, 275423344,
   430227734, 506948616, 659060556, 883997877, 958139571, 1322822218,
   1537002063, 1747873779, 1955562222, 2024104815, 2227730452, 2361852424,
   2428436474, 2756734187, 3204031479, 3329325298]

def sha256H0 : List Nat :=
  [1779033703, 3144134277, 1013904242, 2773480762, 1359893119, 2600822924,
   528734635, 1541459225]

/-- Big-endian byte decomposition, `k` bytes. -/
def natToBytesBE (k n : Nat) : List Nat :=
  (List.range k).map (fun i => n / 2 ^ (8 * (k - 1 - i)) % 256)

def bytesToWordsBE : List Nat → List Nat
  | a :: b :: c :: d :: rest =>
    (a * 16777216 + b * 65536 + c * 256 + d) :: bytesToWordsBE rest
  | _ => []

/-- Merkle-Damgard padding: a 0x80 byte, zeros, then the 64-bit bit length. -/
def sha256Pad (msg : List Nat) : List Nat :=
  let padZeros := (119 - msg.length % 64) % 64
  msg ++ [128] ++ List.replicate padZeros 0 ++ natToBytesBE 8 (msg.length * 8)

/-- Message-schedule extension of the 16 block words to 64. -/
def sha256Extend : Nat → List Nat → List Nat
  | 0, w => w
  | fuel + 1, w =>
    let n := w.length
    sha256Extend fuel
      (w ++ [(smallSigma1 (w.getD (n - 2) 0) + w.getD (n - 7) 0 +
        smallSigma0 (w.getD (n - 15) 0) + w.getD (n - 16) 0) % 4294967296])

def sha256Round (st : List Nat) (kw : Nat × Nat) : List Nat :=
  match st with
  | [a, b, c, d, e, f, g, h] =>
    let ch := e &&& f ^^^ not32 e &&& g
    let maj := a &&& b ^^^ a &&& c ^^^ b &&& c
    let t1 := (h + bigSigma1 e + ch + kw.1 + kw.2) % 4294967296
    let t2 := (bigSigma0 a + maj) % 4294967296
    [(t1 + t2) % 4294967296, a, b, c, (d + t1) % 4294967296, e, f, g]
  | st => st

def sha256Block (h : List Nat) (block : List Nat) : List Nat :=
  let w := sha256Extend 48 (bytesToWordsBE block)
  let st := (sha256K.zip w).foldl sha256Round h
  (h.zip st).map (fun p => (p.fst + p.snd) % 4294967296)

def chunk64Fuel : Nat → List Nat → List (List Nat)
  | 0, _ => []
  | _, [] => []
  | f + 1, b :: rest => ((b :: rest).take 64) :: chunk64Fuel f ((b :: rest).drop 64)

def chunk64 (bs : List Nat) : List (List Nat) := chunk64Fuel (bs.length + 1) bs

/-- SHA-256 digest (32 bytes) of a byte sequence. -/
def sha256Bytes (msg : List Nat) : List Nat :=
  ((chunk64 (sha256Pad msg)).foldl sha256Block sha256H0).flatMap (natToBytesBE 4)

/-- Node `createHash('sha256').update(s).digest('hex')`. -/
def sha256Hex (s : String) : String := bytesToHex (sha256Bytes (stringToBuffer s))

/-- Node `createHash('sha256').update(s).digest('base64')`. -/
def sha256Base64 (s : String) : String :=
  encodeBuffer (sha256Bytes (stringToBuffer s))

/-! ## JSON serialization (`JSON.stringify` / `JSON.parse`) -/

def lbrace : Char := Char.ofNat 123

def rbrace : Char := Char.ofNat 125

def jsonEscapeChar (c : Char) : List Char :=
  if c = '"' then ['\\', '"']
  else if c = '\\' then ['\\', '\\']
  else if c.toNat = 10 then ['\\', 'n']
  else if c.toNat = 13 then ['\\', 'r']
  else if c.toNat = 9 then ['\\', 't']
  else if c.toNat = 8 then ['\\', 'b']
  else if c.toNat = 12 then ['\\', 'f']
  else if c.toNat < 32 then
    ['\\', 'u', '0', '0', hexChar (c.toNat / 16), hexChar (c.toNat % 16)]
  else [c]

def jsonQuote (s : String) : List Char :=
  '"' :: s.data.flatMap jsonEscapeChar ++ ['"']

mutual

/-- The characters of `JSON.stringify` output (no added whitespace, object
keys in insertion order, integers only — the keychains never store
fractional numbers). -/
def jsonStringifyChars : Json → List Char
  | .null => "null".data
  | .bool true => "true".data
  | .bool false => "false".data
  | .num n => (toString n).data
  | .str s => jsonQuote s
  | .arr xs => '[' :: jsonStringifyList xs ++ [']']
  | .obj fs => lbrace :: jsonStringifyFields fs ++ [rbrace]

def jsonStringifyList : List Json → List Char
  | [] => []
  | [x] => jsonStringifyChars x
  | x :: y :: rest => jsonStringifyChars x ++ ',' :: jsonStringifyList (y :: rest)

def jsonStringifyFields : List (String × Json) → List Char
  | [] => []
  | [(k, v)] => jsonQuote k ++ ':' :: jsonStringifyChars v
  | (k, v) :: f :: rest =>
    jsonQuote k ++ ':' :: jsonStringifyChars v ++ ',' :: jsonStringifyFields (f :: rest)

end

def jsonStringify (j : Json) : String := String.mk (jsonStringifyChars j)

def skipWs : List Char → List Char
  | c :: rest =>
    if c = ' ' ∨ c.toNat = 9 ∨ c.toNat = 10 ∨ c.toNat = 13 then skipWs rest
    else c :: rest
  | [] => []

def digitsLoop : List Char → Nat → Nat × List Char
  | c :: rest, acc =>
    if c.isDigit then digitsLoop rest (acc * 10 + (c.toNat - 48)) else (acc, c :: rest)
  | [], acc => (acc, [])

def parseDigits : List Char → Option (Nat × List Char)
  | c :: rest => if c.isDigit then some (digitsLoop rest (c.toNat - 48)) else none
  | [] => none

/-- Parse a JSON string body after the opening quote: the content characters
and the remainder after the closing quote. -/
def parseStrBody : Nat → List Char → Option (List Char × List Char)
  | 0, _ => none
  | fuel + 1, cs =>
    match cs with
    | [] => none
    | '"' :: rest => some ([], rest)
    | '\\' :: e :: rest =>
      if e = '"' ∨ e = '\\' ∨ e = '/' then
        match parseStrBody fuel rest with
        | some (body, rem) => some (e :: body, rem)
        | none => none
      else if e = 'n' ∨ e = 'r' ∨ e = 't' ∨ e = 'b' ∨ e = 'f' then
        let c : Char :=
          if e = 'n' then Char.ofNat 10
          else if e = 'r' then Char.ofNat 13
          else if e = 't' then Char.ofNat 9
          else if e = 'b' then Char.ofNat 8
          else Char.ofNat 12
        match parseStrBody fuel rest with
        | some (body, rem) => some (c :: body, rem)
        | none => none
      else if e = 'u' then
        match rest with
        | h1 :: h2 :: h3 :: h4 :: rest2 =>
          match hexVal h1, hexVal h2, hexVal h3, hexVal h4 with
          | some a, some b, some c, some d =>
            let v := a * 4096 + b * 256 + c * 16 + d
            if 55296 ≤ v ∧ v < 57344 then none
            else
              match parseStrBody fuel rest2 with
              | some (body, rem) => some (Char.ofNat v :: body, rem)
              | none => none
          | _, _, _, _ => none
        | _ => none
      else none
    | c :: rest =>
      if c.toNat < 32 then none
      else
        match parseStrBody fuel rest with
        | some (body, rem) => some (c :: body, rem)
        | none => none

mutual

/-- Executable `JSON.parse` (fuel-indexed; `jsonParse` supplies ample fuel). -/
def parseJsonVal : Nat → List Char → Option (Json × List Char)
  | 0, _ => none
  | fuel + 1, cs =>
    match skipWs cs with
    | [] => none
    | 'n' :: 'u' :: 'l' :: 'l' :: rest => some (.null, rest)
    | 't' :: 'r' :: 'u' :: 'e' :: rest => some (.bool true, rest)
    | 'f' :: 'a' :: 'l' :: 's' :: 'e' :: rest => some (.bool false, rest)
    | '"' :: rest =>
      match parseStrBody fuel rest with
      | some (body, rem) => some (.str (String.mk body), rem)
      | none => none
    | '[' :: rest =>
      match skipWs rest with
      | ']' :: rest2 => some (.arr [], rest2)
      | rest2 =>
        match parseArrItems fuel rest2 with
        | some (xs, rem) => some (.arr xs, rem)
        | none => none
    | '-' :: rest =>
      match parseDigits rest with
      | some (n, rem) => some (.num (-(n : Int)), rem)
      | none => none
    | c :: rest =>
      if c = lbrace then
        match skipWs rest with
        | c2 :: rest2 =>
          if c2 = rbrace then some (.obj [], rest2)
          else
            match parseObjItems fuel (c2 :: rest2) with
            | some (fs, rem) => some (.obj fs, rem)
            | none => none
        | [] => none
      else if c.isDigit then
        match parseDigits (c :: rest) with
        | some (n, rem) => some (.num (n : Int), rem)
        | none => none
      else none

def parseArrItems : Nat → List Char → Option (List Json × List Char)
  | 0, _ => none
  | fuel + 1, cs =>
    match parseJsonVal fuel cs with
    | some (v, rest) =>
      match skipWs rest with
      | ',' :: rest2 =>
        match parseArrItems fuel rest2 with
        | some (xs, rem) => some (v :: xs, rem)
        | none => none
      | ']' :: rest2 => some ([v], rest2)
      | _ => none
    | none => none

def parseObjItems : Nat → List Char → Option (List (String × Json) × List Char)
  | 0, _ => none
  | fuel + 1, cs =>
    match skipWs cs with
    | '"' :: rest =>
      match parseStrBody fuel rest with
      | some (key, rest2) =>
        match skipWs rest2 with
        | ':' :: rest3 =>
          match parseJsonVal fuel rest3 with
          | some (v, rest4) =>
            match skipWs rest4 with
            | ',' :: rest5 =>
              match parseObjItems fuel rest5 with
              | some (fs, rem) => some ((String.mk key, v) :: fs, rem)
              | none => none
            | c :: rest5 =>
              if c = rbrace then some ([(String.mk key, v)], rest5) else none
            | [] => none
          | none => none
        | _ => none
      | none => none
    | _ => none

end

/-- `JSON.parse`: parse the whole string as one JSON value. -/
def jsonParse (s : String) : Option Json :=
  match parseJsonVal (s.data.length + 1) s.data with
  | some (j, rest) => if skipWs rest = [] then some j else none
  | none => none

/-! ## Thrown errors (the drafts' error vocabulary) -/

/-- Errors the two drafts can raise.  `integrityError` is
`Error("Data integrity check failed")`; `badDecrypt` is the generic OpenSSL
decryption failure from `decipher.final`; the rest are the standard
JavaScript/Node error classes raised at the annotated points. -/
inductive JsErr where
  | typeError       -- TypeError (destructuring null, Buffer.from(undefined), non-string ctor arg)
  | rangeError      -- RangeError: invalid array length
  | syntaxError     -- SyntaxError from JSON.parse
  | integrityError  -- Error('Data integrity check failed')
  | badDecrypt      -- OpenSSL bad decrypt in decipher.update/final
  | invalidIV       -- Invalid initialization vector (CBC needs 16 bytes)
  | passwordLength  -- Error('Password length exceeds the maximum allowed length')
  deriving DecidableEq

instance : Inhabited JsErr := ⟨JsErr.typeError⟩

/-! ## JavaScript array/object receivers for draft 1's `this.data` -/

/-- Canonical array-index test: `"0"`, or digits without a leading zero whose
value is below 2^32 - 1. -/
def arrayIndexOf (s : String) : Option Nat :=
  match s.data with
  | [] => none
  | ['0'] => some 0
  | c :: rest =>
    if c.isDigit ∧ c ≠ '0' ∧ rest.all (fun d => d.isDigit) then
      let v := (c :: rest).foldl (fun acc d => acc * 10 + (d.toNat - 48)) 0
      if v < 4294967295 then some v else none
    else none

/-- Set an array element, extending with holes as JavaScript does. -/
def listSetPad (l : List (Option Json)) (i : Nat) (v : Json) : List (Option Json) :=
  if i < l.length then l.set i (some v)
  else l ++ List.replicate (i - l.length) none ++ [some v]

/-- Resize an array via a `length` assignment. -/
def resizeElems (l : List (Option Json)) (n : Nat) : List (Option Json) :=
  if n ≤ l.length then l.take n else l ++ List.replicate (n - l.length) none

/-- Draft 1's `this.data`: the array `[]` from `init` (index elements plus
the string-keyed expando properties `set` creates on it), or whatever value
`load` pulled out of the parsed JSON. -/
inductive V1Data where
  | arrD (elems : List (Option Json)) (props : List (String × Json))
  | objD (props : List (String × Json))
  | primD (j : Json)
  | undefD

instance : Inhabited V1Data := ⟨V1Data.undefD⟩

/-- Property read `this.data[name]`, prototype chain included. -/
def v1RawGet (d : V1Data) (name : String) : Except JsErr JsVal :=
  match d with
  | .arrD elems props =>
    match arrayIndexOf name with
    | some i =>
      .ok (match elems.getD i none with | some j => .jval j | none => .undefined)
    | none =>
      if name = "length" then .ok (.jval (.num elems.length))
      else
        match alookup props name with
        | some j => .ok (.jval j)
        | none => .ok (arrayProtoLookup name)
  | .objD props =>
    match alookup props name with
    | some j => .ok (.jval j)
    | none => .ok (objProtoLookup name)
  | .primD .null => .error .typeError
  | .primD _ => .ok (objProtoLookup name)
  | .undefD => .error .typeError

/-- Property write `this.data[name] = v` (strict mode). -/
def v1SetData (d : V1Data) (name : String) (v : Json) : Except JsErr V1Data :=
  match d with
  | .arrD elems props =>
    match arrayIndexOf name with
    | some i => .ok (.arrD (listSetPad elems i v) props)
    | none =>
      if name = "length" then
        match v with
        | .str s =>
          if s.data ≠ [] ∧ s.data.all (fun d => d.isDigit) ∧
              s.data.foldl (fun acc d => acc * 10 + (d.toNat - 48)) 0 < 4294967296 then
            .ok (.arrD (resizeElems elems
              (s.data.foldl (fun acc d => acc * 10 + (d.toNat - 48)) 0)) props)
          else .error .rangeError
        | .num n =>
          if 0 ≤ n ∧ n < 4294967296 then .ok (.arrD (resizeElems elems n.toNat) props)
          else .error .rangeError
        | _ => .error .rangeError
      else if name = "__proto__" then .ok d
      else .ok (.arrD elems (aupsert props name v))
  | .objD props =>
    if name = "__proto__" then .ok d
    else .ok (.objD (aupsert props name v))
  | .primD .null => .error .typeError
  | .primD _ => .error .typeError
  | .undefD => .error .typeError

/-- Property deletion `delete this.data[name]` (strict mode). -/
def v1DeleteData (d : V1Data) (name : String) : Except JsErr V1Data :=
  match d with
  | .arrD elems props =>
    match arrayIndexOf name with
    | some i => .ok (.arrD (if i < elems.length then elems.set i none else elems) props)
    | none =>
      if name = "length" then .error .typeError
      else .ok (.arrD elems (aerase props name))
  | .objD props => .ok (.objD (aerase props name))
  | .primD .null => .error .typeError
  | .primD _ => .ok d
  | .undefD => .error .typeError

/-- The value `JSON.stringify` sees for draft 1's `this.data`: arrays keep
only their index elements (holes become `null`, expando properties are
dropped). -/
def v1DataToJson : V1Data → Json
  | .arrD elems _ => .arr (elems.map (fun e => e.getD .null))
  | .objD props => .obj props
  | .primD j => j
  | .undefD => .null

/-- Destructuring / property access on a parsed JSON value (`const { f } = j`
throws a TypeError only when `j` is `null`). -/
def jsField (j : Json) (k : String) : Except JsErr JsVal :=
  match j with
  | .null => .error .typeError
  | .obj fs =>
    .ok (match alookup fs k with
      | some v => .jval v
      | none => objProtoLookup k)
  | .arr xs =>
    match arrayIndexOf k with
    | some i =>
      if i < xs.length then .ok (.jval (xs.getD i Json.null)) else .ok .undefined
    | none =>
      if k = "length" then .ok (.jval (.num xs.length))
      else .ok (arrayProtoLookup k)
  | _ => .ok (objProtoLookup k)

/-- Strict equality `v === t` between a read property and an optional caller
string (`undefined` when the argument is omitted). -/
def jsStrictEqOpt (v : JsVal) (t : Option String) : Bool :=
  match v, t with
  | .undefined, none => true
  | .jval (.str s), some t' => s = t'
  | _, _ => false

/-- Node `Buffer.from(x, 'base64')`: strings decode leniently, arrays give
their coerced bytes, everything else throws. -/
def bufferFromB64Js : JsVal → Except JsErr (List Nat)
  | .jval (.str s) => .ok (decodeBuffer s)
  | .jval (.arr xs) =>
    .ok (xs.map (fun x => match x with
      | .num n => ((n % 256 + 256) % 256).toNat
      | _ => 0))
  | _ => .error .typeError

/-- The `this.data` receiver built from the loaded JSON `data` field. -/
def v1DataOfJsVal : JsVal → V1Data
  | .undefined => .undefD
  | .jval (.arr xs) => .arrD (xs.map some) []
  | .jval (.obj fs) => .objD fs
  | .jval j => .primD j
  | .builtin _ => .undefD

namespace Keychain1

/-- Draft 1 keychain state (source lines 16-141): the constructor stores the
four fields verbatim. -/
structure St where
  password : String
  salt : List Nat
  iv : List Nat
  data : V1Data

/-- `Keychain.init` (lines 40-45).  `getRandomBytes(16)` is randomness from
lib.js; the generated bytes are passed in as parameters. -/
def init (password : String) (saltBytes ivBytes : List Nat) : St :=
  { password := password, salt := saltBytes, iv := ivBytes, data := .arrD [] [] }

/-- `computeChecksum` (lines 93-98): SHA-256, base64 digest. -/
def computeChecksum (data : String) : String := sha256Base64 data

/-- `Keychain.dump` (lines 86-90): stringifies
`{salt, iv, data: this.data, kvs: this.data}` and pairs it with the
checksum.  An `undefined` data field is omitted by `JSON.stringify`. -/
def dump (st : St) : String × String :=
  let serializedData := jsonStringify (.obj
    ([("salt", .str (encodeBuffer st.salt)), ("iv", .str (encodeBuffer st.iv))] ++
      (match st.data with
       | .undefD => []
       | d => [("data", v1DataToJson d), ("kvs", v1DataToJson d)])))
  (serializedData, computeChecksum serializedData)

/-- `Keychain.load` (lines 64-72): destructures `{serializedData, checksum}`
from the parsed repr, compares the embedded `checksum` against
`trustedDataCheck` by strict equality, then destructures
`{salt, iv, data}` from `serializedData`. -/
def load (password repr : String) (trusted : Option String) : Except JsErr St := do
  match jsonParse repr with
  | none => .error .syntaxError
  | some j =>
    let sd ← jsField j "serializedData"
    let ck ← jsField j "checksum"
    if ¬ jsStrictEqOpt ck trusted then .error .integrityError
    else
      match sd with
      | .undefined => .error .typeError
      | .jval .null => .error .typeError
      | .jval sdj => do
        let saltV ← jsField sdj "salt"
        let ivV ← jsField sdj "iv"
        let dataV ← jsField sdj "data"
        let saltB ← bufferFromB64Js saltV
        let ivB ← bufferFromB64Js ivV
        .ok { password := password, salt := saltB, iv := ivB,
              data := v1DataOfJsVal dataV }
      | .builtin _ => .error .typeError

/-- `Keychain.get` (lines 109-111): `this.data[name] || null`. -/
def get (name : String) (st : St) : Except JsErr JsVal := do
  let v ← v1RawGet st.data name
  .ok (if jsTruthy v then v else .jval .null)

/-- `Keychain.set` (lines 123-125): `this.data[name] = value`. -/
def set (name value : String) (st : St) : Except JsErr St := do
  let d ← v1SetData st.data name (.str value)
  .ok { st with data := d }

/-- `Keychain.remove` (lines 135-141): truthiness-guarded delete. -/
def remove (name : String) (st : St) : Except JsErr (Bool × St) := do
  let v ← v1RawGet st.data name
  if jsTruthy v then do
    let d ← v1DeleteData st.data name
    .ok (true, { st with data := d })
  else
    .ok (false, st)

end Keychain1

/-! ## Symbolic key derivation and ciphers for draft 3 -/

/-- Modelled from the spec (KDF module): `crypto.pbkdf2Sync`/`pbkdf2` as a
symbolic key value — the derived key is determined by, and only by, the
password, the salt bytes (Node turns a string salt into its UTF-8 bytes),
the iteration count, and the length. -/
inductive KeyMat where
  | derive (password : String) (saltBytes : List Nat) (iter : Nat) (len : Nat)
  deriving DecidableEq

instance : Inhabited KeyMat := ⟨KeyMat.derive "" [] 0 0⟩

/-- Injective byte tag for a symbolic ciphertext: the cipher name, the key
material, the IV, and the plaintext. -/
def cipherTagBytes (algo : String) (key : KeyMat) (iv : List Nat) (pt : String) :
    List Nat :=
  match key with
  | .derive pw salt iter len =>
    stringToBuffer algo ++ [0] ++ stringToBuffer pw ++ [0] ++ salt ++ [0] ++
      natToBytesBE 4 iter ++ natToBytesBE 4 len ++ [0] ++ iv ++ [0] ++
      stringToBuffer pt

/-- Modelled from the spec (Record Codec): `crypto.createCipheriv('aes-256-gcm',
key, iv)` followed by `update(..., 'utf8', 'hex')` and `final('hex')` —
symbolically, the hex encoding of the tagged (algorithm, key, IV, plaintext).
Note draft 3's dump never calls `getAuthTag`, so the GCM tag is lost. -/
def aes256gcmEncryptHex (key : KeyMat) (iv : List Nat) (pt : String) : String :=
  bytesToHex (cipherTagBytes "aes-256-gcm" key iv pt)

/-- Modelled from the spec (Record Codec): `createDecipheriv('aes-256-cbc',
key, iv)` + `update(ct, 'hex', 'utf8')` + `final('utf8')` — symbolically,
decryption succeeds exactly when the ciphertext was produced by the same
algorithm under the same key and IV, and otherwise raises the generic
`bad decrypt` error that mismatched keys or tampered bytes produce. -/
def aes256cbcDecryptHex (key : KeyMat) (iv : List Nat) (ct : String) :
    Except JsErr String :=
  let bs := hexToBytes ct
  let expected := cipherTagBytes "aes-256-cbc" key iv ""
  if expected.isPrefixOf bs then .ok (bufferToString (bs.drop expected.length))
  else .error .badDecrypt

/-- Draft 3's salt/iv fields: Buffers from the constructor, but raw JSON
strings after `load` reassigns them. -/
inductive JsBuf where
  | buf (bytes : List Nat)
  | jstr (s : String)
  deriving DecidableEq

instance : Inhabited JsBuf := ⟨JsBuf.buf []⟩

/-- `x.toString('hex')`: hex for Buffers; for a string the argument is
ignored and the string itself is returned. -/
def jsbufToHexStr : JsBuf → String
  | .buf bs => bytesToHex bs
  | .jstr s => s

/-- The bytes a Node cipher sees for the IV argument. -/
def jsbufBytes : JsBuf → List Nat
  | .buf bs => bs
  | .jstr s => stringToBuffer s

namespace Keychain3

/-- Draft 3 keychain state (source lines 310-500). -/
structure St where
  data : List (String × String)
  secrets : List (String × String)
  salt : JsBuf
  iv : JsBuf
  key : KeyMat

/-- The `Keychain` constructor (lines 325-339): rejects non-string
passwords, initializes empty `data`/`secrets`, draws a random salt and IV
(passed here as parameters), and derives the PBKDF2 key. -/
def constructorJs (passwordArg : Json) (rndSalt rndIv : List Nat) :
    Except JsErr St :=
  match passwordArg with
  | .str pw =>
    .ok { data := [], secrets := [], salt := .buf rndSalt, iv := .buf rndIv,
          key := .derive pw rndSalt 100000 32 }
  | _ => .error .typeError

/-- `Keychain.init` (lines 347-358): length bound (64), then the
constructor.  (The `typeof` check after the length test is subsumed by the
string-typed argument.) -/
def init (password : String) (rndSalt rndIv : List Nat) : Except JsErr St :=
  if password.length > 64 then .error .passwordLength
  else constructorJs (.str password) rndSalt rndIv

/-- Property read on draft 3's plain-object `this.data` (own base64-keyed
properties, then `Object.prototype`). -/
def dataGet (props : List (String × String)) (k : String) : JsVal :=
  match alookup props k with
  | some v => .jval (.str v)
  | none => objProtoLookup k

/-- `Keychain.set` (lines 471-477): stores base64(name) ↦ base64(value). -/
def set (name value : String) (st : St) : St :=
  let nameBase64 := encodeBuffer (stringToBuffer name)
  let valueBase64 := encodeBuffer (stringToBuffer value)
  { st with data := aupsert st.data nameBase64 valueBase64 }

/-- `Keychain.get` (lines 453-459): decode the stored base64 value, or
`null` when `this.data[nameBase64]` is `undefined`.  (A read that hit an
inherited `Object.prototype` function would flow into `decodeBuffer` and
throw; the base64 key shape makes that unreachable.) -/
def get (name : String) (st : St) : Except JsErr (Option String) :=
  let nameBase64 := encodeBuffer (stringToBuffer name)
  match dataGet st.data nameBase64 with
  | .jval (.str v) => .ok (some (bufferToString (decodeBuffer v)))
  | .undefined => .ok none
  | _ => .error .typeError

/-- `Keychain.remove` (lines 487-497): delete guarded by
`!== undefined`. -/
def remove (name : String) (st : St) : Bool × St :=
  let nameBase64 := encodeBuffer (stringToBuffer name)
  match dataGet st.data nameBase64 with
  | .undefined => (false, st)
  | _ => (true, { st with data := aerase st.data nameBase64 })

/-- The hex ciphertext `dump` computes (lines 423-426): AES-256-GCM over
`JSON.stringify(this.data)` under `this.key` and `this.iv`. -/
def encryptedData (st : St) : String :=
  aes256gcmEncryptHex st.key (jsbufBytes st.iv)
    (jsonStringify (.obj (st.data.map (fun p => (p.1, Json.str p.2)))))

/-- `Keychain.dump` (lines 420-436): serialize hex salt, hex IV, and the
ciphertext, with a SHA-256 hex checksum of the serialization. -/
def dump (st : St) : String × String :=
  let serializedData := jsonStringify (.obj
    [("salt", .str (jsbufToHexStr st.salt)), ("iv", .str (jsbufToHexStr st.iv)),
      ("data", .str (encryptedData st))])
  (serializedData, sha256Hex serializedData)

/-- `Keychain.load` (lines 376-406): parse the repr; PBKDF2 with the salt
exactly as destructured (here a hex string, so its UTF-8 bytes — not the
original salt bytes); AES-256-CBC decrypt (not GCM); parse the plaintext;
only then the optional checksum comparison (skipped when
`trustedDataCheck` is falsy); finally `new Keychain(data)` with the parsed
data as the password argument, patching `key`, `salt`, `iv`.  The fresh
randomness the constructor draws is passed as parameters. -/
def load (password repr : String) (trusted : Option String)
    (rndSalt rndIv : List Nat) : Except JsErr St := do
  match jsonParse repr with
  | none => .error .syntaxError
  | some j => do
    let saltV ← jsField j "salt"
    let ivV ← jsField j "iv"
    let dataV ← jsField j "data"
    let saltStr ← match saltV with
      | .jval (.str s) => pure s
      | _ => .error .typeError
    let derivedKey := KeyMat.derive password (stringToBuffer saltStr) 100000 32
    let ivStr ← match ivV with
      | .jval (.str s) => pure s
      | _ => .error .typeError
    let ivBytes := hexToBytes ivStr
    if ivBytes.length ≠ 16 then .error .invalidIV
    else do
      let ctStr ← match dataV with
        | .jval (.str s) => pure s
        | _ => .error .typeError
      let decrypted ← aes256cbcDecryptHex derivedKey ivBytes ctStr
      match jsonParse decrypted with
      | none => .error .syntaxError
      | some dataJ => do
        let checksum := sha256Hex repr
        match trusted with
        | some t =>
          if t ≠ "" ∧ checksum ≠ t then .error .integrityError
          else do
            let kc ← constructorJs dataJ rndSalt rndIv
            .ok { kc with
                  key := derivedKey
                  salt := JsBuf.jstr saltStr
                  iv := JsBuf.jstr ivStr }
        | none => do
          let kc ← constructorJs dataJ rndSalt rndIv
          .ok { kc with
                key := derivedKey
                salt := JsBuf.jstr saltStr
                iv := JsBuf.jstr ivStr }

end Keychain3

/-! ## Shared lemmas about property lists and draft-3 records -/

theorem alookup_aupsert_self {α : Type} (l : List (String × α)) (k : String) (v : α) :
    alookup (aupsert l k v) k = some v := by
  induction l with
  | nil => simp [aupsert, alookup]
  | cons p t ih =>
    by_cases hk : p.1 = k
    · simp [aupsert, hk, alookup]
    · simp [aupsert, hk, alookup, ih]

theorem alookup_aerase_self {α : Type} (l : List (String × α)) (k : String) :
    alookup (aerase l k) k = none := by
  induction l with
  | nil => simp [aerase, alookup]
  | cons p t ih =>
    by_cases hk : p.1 = k
    · simpa [aerase, hk] using ih
    · simpa [aerase, hk, alookup] using ih

theorem encodeBuffer_utf8_notMem_objProtoProps (s : String) :
    encodeBuffer (stringToBuffer s) ∉ objProtoProps := fun hmem =>
  encodeBuffer_utf8_notin_objProtoProps s _ hmem rfl

theorem dataGet_of_alookup_none (props : List (String × String)) (name : String)
    (h : alookup props (encodeBuffer (stringToBuffer name)) = none) :
    Keychain3.dataGet props (encodeBuffer (stringToBuffer name)) = .undefined := by
  rw [Keychain3.dataGet, h, objProtoLookup,
    if_neg (encodeBuffer_utf8_notMem_objProtoProps name)]

theorem dataGet_of_alookup_some (props : List (String × String)) (k v : String)
    (h : alookup props k = some v) :
    Keychain3.dataGet props k = .jval (.str v) := by
  rw [Keychain3.dataGet, h]

/-- Draft 3 round-trip core: after `set name value`, `get name` finds the
fresh own property and decodes it back to `value`. -/
theorem keychain3_get_set (st : Keychain3.St) (name value : String) :
    Keychain3.get name (Keychain3.set name value st) = .ok (some value) := by
  dsimp only [Keychain3.get, Keychain3.set]
  rw [dataGet_of_alookup_some _ _ _ (alookup_aupsert_self _ _ _)]
  show Except.ok (some (bufferToString (decodeBuffer
    (encodeBuffer (stringToBuffer value))))) = _
  rw [decodeBuffer_encodeBuffer_utf8, bufferToString_stringToBuffer]

/-- Draft 3 remove semantics: the boolean reports exactly whether a record
was present, a `false` result leaves the state untouched, and afterwards
`get` yields `null`. -/
theorem keychain3_remove_spec (st : Keychain3.St) (name : String) :
    (Keychain3.remove name st).1 =
        (alookup st.data (encodeBuffer (stringToBuffer name))).isSome ∧
      (Keychain3.remove name st).2 =
        (if (alookup st.data (encodeBuffer (stringToBuffer name))).isSome then
          { st with data := aerase st.data (encodeBuffer (stringToBuffer name)) }
        else st) ∧
      Keychain3.get name (Keychain3.remove name st).2 = .ok none := by
  rcases h : alookup st.data (encodeBuffer (stringToBuffer name)) with _ | v
  · have hd := dataGet_of_alookup_none st.data name h
    have hr : Keychain3.remove name st = (false, st) := by
      dsimp only [Keychain3.remove]
      rw [hd]
    refine ⟨by rw [hr]; simp, by rw [hr]; simp, ?_⟩
    rw [hr]
    dsimp only [Keychain3.get]
    rw [hd]
  · have hd := dataGet_of_alookup_some st.data _ v h
    have hr : Keychain3.remove name st =
        (true, { st with
          data := aerase st.data (encodeBuffer (stringToBuffer name)) }) := by
      dsimp only [Keychain3.remove]
      rw [hd]
    refine ⟨by rw [hr]; simp, by rw [hr]; simp, ?_⟩
    rw [hr]
    dsimp only [Keychain3.get]
    rw [dataGet_of_alookup_none _ name (alookup_aerase_self _ _)]

/-- Every character of draft 3's encrypted `data` field is a hex digit. -/
theorem keychain3_encryptedData_hex (st : Keychain3.St) :
    (Keychain3.encryptedData st).data.all (fun c => (hexVal c).isSome) := by
  rw [Keychain3.encryptedData, aes256gcmEncryptHex, bytesToHex]
  rw [List.all_eq_true]
  intro c hc
  simp only [List.mem_flatMap, bytesToHexChars, List.mem_cons,
    List.not_mem_nil, or_false] at hc
  obtain ⟨b, _, hb⟩ := hc
  have h1 : hexVal (hexChar (b / 16 % 16)) = some (b / 16 % 16) :=
    hexVal_hexChar _ (Nat.mod_lt _ (by omega))
  have h2 : hexVal (hexChar (b % 16)) = some (b % 16) :=
    hexVal_hexChar _ (Nat.mod_lt _ (by omega))
  rcases hb with rfl | rfl
  · rw [h1]; rfl
  · rw [h2]; rfl

/-! ## Draft-1 general lemmas -/

/-- A `set` under a non-index name other than `length` touches only the
expando properties of the array (or is the `__proto__` no-op): the index
elements, password, salt and IV are untouched. -/
theorem keychain1_set_nonindex (pw : String) (salt iv : List Nat)
    (elems : List (Option Json)) (props : List (String × Json))
    (name value : String) (hni : arrayIndexOf name = none)
    (hnl : name ≠ "length") :
    ∃ props', Keychain1.set name value
        ⟨pw, salt, iv, .arrD elems props⟩ =
      .ok ⟨pw, salt, iv, .arrD elems props'⟩ := by
  dsimp only [Keychain1.set, v1SetData]
  rw [hni]
  by_cases hp : name = "__proto__"
  · refine ⟨props, ?_⟩
    rw [if_neg hnl, if_pos hp]
    rfl
  · refine ⟨aupsert props name (.str value), ?_⟩
    rw [if_neg hnl, if_neg hp]
    rfl

/-- Folding a sequence of `set` calls. -/
def setMany : List (String × String) → Keychain1.St → Except JsErr Keychain1.St
  | [], st => .ok st
  | (n, v) :: rest, st => do setMany rest (← Keychain1.set n v st)

/-- A sequence of `set` calls under non-index, non-`length` names succeeds
and leaves the array elements, password, salt and IV untouched. -/
theorem setMany_nonindex (ops : List (String × String)) :
    ∀ (pw : String) (salt iv : List Nat) (elems : List (Option Json))
      (props : List (String × Json)),
      (∀ p ∈ ops, arrayIndexOf p.1 = none ∧ p.1 ≠ "length") →
      ∃ props', setMany ops ⟨pw, salt, iv, .arrD elems props⟩ =
        .ok ⟨pw, salt, iv, .arrD elems props'⟩ := by
  induction ops with
  | nil => exact fun pw salt iv elems props _ => ⟨props, rfl⟩
  | cons p rest ih =>
    intro pw salt iv elems props hall
    obtain ⟨props1, h1⟩ := keychain1_set_nonindex pw salt iv elems props p.1 p.2
      (hall p (by simp)).1 (hall p (by simp)).2
    obtain ⟨props2, h2⟩ := ih pw salt iv elems props1
      (fun q hq => hall q (by simp [hq]))
    refine ⟨props2, ?_⟩
    rw [show (p : String × String) = (p.1, p.2) from rfl]
    dsimp only [setMany]
    rw [h1]
    exact h2

/-- Draft 1's dump does not depend on the expando properties: `JSON.stringify`
serializes only the array's index elements. -/
theorem keychain1_dump_props_irrelevant (pw : String) (salt iv : List Nat)
    (elems : List (Option Json)) (props props' : List (String × Json)) :
    Keychain1.dump ⟨pw, salt, iv, .arrD elems props'⟩ =
      Keychain1.dump ⟨pw, salt, iv, .arrD elems props⟩ := rfl

/-! ## Draft-1 load: the only integrity failure is the embedded-checksum
comparison -/

/-- Read of a property of a parsed JSON object (the value `jsField` wraps
in `.ok`). -/
def objPropRead (fs : List (String × Json)) (k : String) : JsVal :=
  match alookup fs k with
  | some v => .jval v
  | none => objProtoLookup k

theorem jsField_obj (fs : List (String × Json)) (k : String) :
    jsField (.obj fs) k = .ok (objPropRead fs k) := rfl

/-- A result that is not the integrity error. -/
def noIntegrity {α : Type} (x : Except JsErr α) : Prop :=
  x ≠ .error .integrityError

theorem noIntegrity_bind {α β : Type} (e : Except JsErr α)
    (f : α → Except JsErr β) (he : noIntegrity e)
    (hf : ∀ a, noIntegrity (f a)) : noIntegrity (e.bind f) := by
  cases e with
  | error er =>
    intro h
    simp only [Except.bind] at h
    injection h with h2
    exact he (by rw [h2])
  | ok a =>
    simpa [Except.bind] using hf a

theorem bufferFromB64Js_noIntegrity (v : JsVal) :
    noIntegrity (bufferFromB64Js v) := by
  rcases v with _ | j | n
  · simp [bufferFromB64Js, noIntegrity]
  · rcases j <;> simp [bufferFromB64Js, noIntegrity]
  · simp [bufferFromB64Js, noIntegrity]

theorem jsField_never_integrity (j : Json) (k : String) :
    noIntegrity (jsField j k) := by
  rcases j <;> simp only [jsField, noIntegrity] <;> try simp
  · repeat' split
    all_goals simp

theorem exc_ok_bind {α β : Type} (a : α) (f : α → Except JsErr β) :
    (Except.ok a : Except JsErr α) >>= f = f a := rfl

/-- The tail of draft 1's load (after the integrity comparison) can fail
only with type errors, never with the integrity error. -/
theorem keychain1_load_tail_noIntegrity (pw : String) (sdj : Json) :
    noIntegrity (jsField sdj "salt" >>= fun saltV =>
      jsField sdj "iv" >>= fun ivV =>
        jsField sdj "data" >>= fun dataV =>
          bufferFromB64Js saltV >>= fun saltB =>
            bufferFromB64Js ivV >>= fun ivB =>
              Except.ok ({ password := pw
                           salt := saltB
                           iv := ivB
                           data := v1DataOfJsVal dataV } : Keychain1.St)) := by
  refine noIntegrity_bind _ _ (jsField_never_integrity _ _) (fun saltV => ?_)
  refine noIntegrity_bind _ _ (jsField_never_integrity _ _) (fun ivV => ?_)
  refine noIntegrity_bind _ _ (jsField_never_integrity _ _) (fun dataV => ?_)
  refine noIntegrity_bind _ _ (bufferFromB64Js_noIntegrity _) (fun saltB => ?_)
  refine noIntegrity_bind _ _ (bufferFromB64Js_noIntegrity _) (fun ivB => ?_)
  simp [noIntegrity]

/-- Draft 1's load raises the integrity error exactly when the checksum
field embedded in the parsed repr differs (by strict equality) from the
supplied trusted checksum; every other failure of load is a different
error. -/
theorem keychain1_load_integrity_iff (pw repr : String)
    (fs : List (String × Json)) (trusted : Option String)
    (h : jsonParse repr = some (.obj fs)) :
    Keychain1.load pw repr trusted = .error .integrityError ↔
      jsStrictEqOpt (objPropRead fs "checksum") trusted = false := by
  by_cases hc : jsStrictEqOpt (objPropRead fs "checksum") trusted = true
  · have hni : noIntegrity (Keychain1.load pw repr trusted) := by
      simp only [Keychain1.load, h, jsField_obj, exc_ok_bind]
      rw [if_neg (by simp [hc])]
      rcases hv : objPropRead fs "serializedData" with _ | sdj | bn
      · simp [noIntegrity]
      · rcases sdj with _ | b | n | s | xs | sfs
        · simp [noIntegrity]
        · exact keychain1_load_tail_noIntegrity pw (Json.bool b)
        · exact keychain1_load_tail_noIntegrity pw (Json.num n)
        · exact keychain1_load_tail_noIntegrity pw (Json.str s)
        · exact keychain1_load_tail_noIntegrity pw (Json.arr xs)
        · exact keychain1_load_tail_noIntegrity pw (Json.obj sfs)
      · simp [noIntegrity]
    constructor
    · intro hl
      exact absurd hl hni
    · intro hf
      rw [hc] at hf
      exact absurd hf (by simp)
  · have hc' : jsStrictEqOpt (objPropRead fs "checksum") trusted = false := by
      revert hc
      cases jsStrictEqOpt (objPropRead fs "checksum") trusted <;> simp
    have hl : Keychain1.load pw repr trusted = .error .integrityError := by
      simp [Keychain1.load, h, jsField_obj, exc_ok_bind, hc']
    exact ⟨fun _ => hc', fun _ => hl⟩

/-! ## Frame lemmas: record operations never touch salt or IV -/

theorem keychain1_set_frame (st st' : Keychain1.St) (n v : String)
    (h : Keychain1.set n v st = .ok st') :
    st'.salt = st.salt ∧ st'.iv = st.iv ∧ st'.password = st.password := by
  dsimp only [Keychain1.set] at h
  cases hd : v1SetData st.data n (.str v) with
  | error e =>
    rw [hd] at h
    exact absurd h (by simp [Bind.bind, Except.bind])
  | ok d =>
    rw [hd] at h
    simp only [Bind.bind, Except.bind, Except.ok.injEq] at h
    rw [← h]
    exact ⟨rfl, rfl, rfl⟩

theorem keychain1_remove_frame (st : Keychain1.St) (n : String) (b : Bool)
    (st' : Keychain1.St) (h : Keychain1.remove n st = .ok (b, st')) :
    st'.salt = st.salt ∧ st'.iv = st.iv ∧ st'.password = st.password := by
  dsimp only [Keychain1.remove] at h
  cases hv : v1RawGet st.data n with
  | error e =>
    rw [hv] at h
    exact absurd h (by simp [Bind.bind, Except.bind])
  | ok v =>
    rw [hv] at h
    simp only [Bind.bind, Except.bind] at h
    by_cases ht : jsTruthy v
    · rw [if_pos ht] at h
      cases hd : v1DeleteData st.data n with
      | error e =>
        rw [hd] at h
        exact absurd h (by simp)
      | ok d =>
        rw [hd] at h
        simp only [Except.ok.injEq, Prod.mk.injEq] at h
        rw [← h.2]
        exact ⟨rfl, rfl, rfl⟩
    · rw [if_neg ht] at h
      simp only [Except.ok.injEq, Prod.mk.injEq] at h
      rw [← h.2]
      exact ⟨rfl, rfl, rfl⟩

theorem keychain3_set_frame (st : Keychain3.St) (n v : String) :
    (Keychain3.set n v st).salt = st.salt ∧ (Keychain3.set n v st).iv = st.iv ∧
      (Keychain3.set n v st).key = st.key := ⟨rfl, rfl, rfl⟩

theorem keychain3_remove_frame (st : Keychain3.St) (n : String) :
    ((Keychain3.remove n st).2).salt = st.salt ∧
      ((Keychain3.remove n st).2).iv = st.iv ∧
      ((Keychain3.remove n st).2).key = st.key := by
  dsimp only [Keychain3.remove]
  split <;> exact ⟨rfl, rfl, rfl⟩

/-! ## Concrete scenario states (randomness fixed to sample bytes) -/

def salt0 : List Nat := List.range 16

def iv0 : List Nat := (List.range 16).map (fun i => i + 16)

def scenario1Empty : Keychain1.St := Keychain1.init "Correct-Horse9!" salt0 iv0

def scenario1 : Keychain1.St :=
  match Keychain1.set "example.com" "p@ssw0rd" scenario1Empty with
  | .ok s => s
  | .error _ => scenario1Empty

def scenario1Dump : String × String := Keychain1.dump scenario1

def scenario1EmptySecret : Keychain1.St :=
  match Keychain1.set "example.com" "" scenario1Empty with
  | .ok s => s
  | .error _ => scenario1Empty

def scenario1Index : Keychain1.St :=
  match Keychain1.set "0" "p@ssw0rd" scenario1Empty with
  | .ok s => s
  | .error _ => scenario1Empty

def scenario3 : Keychain3.St :=
  match Keychain3.init "Correct-Horse9!" salt0 iv0 with
  | .ok s => Keychain3.set "example.com" "p@ssw0rd" s
  | .error _ =>
    { data := [], secrets := [], salt := .buf [], iv := .buf [],
      key := KeyMat.derive "" [] 0 0 }

def scenario3Dump : String × String := Keychain3.dump scenario3

/-- The scenario ciphertext with its first byte's high nibble changed. -/
def tamperedCiphertext : String :=
  match (Keychain3.encryptedData scenario3).data with
  | c :: rest => String.mk ((if c = 'f' then '0' else 'f') :: rest)
  | [] => ""

/-- The scenario repr with the tampered ciphertext spliced in. -/
def tamperedRepr : String := jsonStringify (.obj
  [("salt", .str (jsbufToHexStr scenario3.salt)),
    ("iv", .str (jsbufToHexStr scenario3.iv)),
    ("data", .str tamperedCiphertext)])

/-- A repr in the shape draft 1's load actually expects — which dump never
produces — carrying a cleartext record. -/
def craftedRepr : String :=
  "\x7b\"serializedData\":\x7b\"salt\":\"\",\"iv\":\"\",\"data\":\x7b\"example.com\":\"p@ssw0rd\"\x7d\x7d\x7d"

def craftedLoadedSt : Keychain1.St :=
  ⟨"totally-wrong-password", [], [],
    .objD [("example.com", .str "p@ssw0rd")]⟩

/-- A repr whose embedded checksum field is `"X"` — not the SHA-256 of
anything. -/
def c2Repr : String :=
  "\x7b\"serializedData\":\x7b\"salt\":\"\",\"iv\":\"\",\"data\":\x7b\x7d\x7d,\"checksum\":\"X\"\x7d"

def c2Fields : List (String × Json) :=
  [("serializedData",
    .obj [("salt", .str ""), ("iv", .str ""), ("data", .obj [])]),
   ("checksum", .str "X")]

def listHasSub (needle : List Char) : List Char → Bool
  | [] => needle.isEmpty
  | c :: rest => needle.isPrefixOf (c :: rest) || listHasSub needle rest

/-- Contiguous substring test on strings. -/
def containsSub (s sub : String) : Bool := listHasSub sub.data s.data

/-! ## Claim theorems -/

set_option maxRecDepth 1000000 in
/-- C1: the spec's concrete lifecycle scenario does not survive the code.
In draft 1, `load(password, dumpedRepr, dumpedChecksum)` throws
`Error("Data integrity check failed")`: load compares a `checksum` field
embedded inside the repr (absent from what dump serializes) against the
supplied checksum.  In draft 3, load throws the generic decryption error:
it derives its key from the UTF-8 bytes of the hex salt string (dump used
the salt bytes) and deciphers with AES-256-CBC (dump enciphered with
AES-256-GCM).  `get`/`remove` after load are never reached. -/
theorem C1_scenario_code_bug :
    Keychain1.load "Correct-Horse9!" scenario1Dump.1 (some scenario1Dump.2) =
        .error .integrityError ∧
      Keychain3.load "Correct-Horse9!" scenario3Dump.1 (some scenario3Dump.2)
        [] [] = .error .badDecrypt :=
  ⟨rfl, rfl⟩

set_option maxRecDepth 1000000 in
/-- C2 counterexample: a repr whose embedded checksum field equals the
supplied trusted checksum `"X"` is accepted by draft 1's load even though
the SHA-256 of the repr's bytes (in either digest encoding) is not `"X"`:
load never recomputes a checksum over the repr. -/
theorem C2_counterexample :
    (Keychain1.load "pw" c2Repr (some "X")).isOk = true ∧
      sha256Base64 c2Repr ≠ "X" ∧ sha256Hex c2Repr ≠ "X" :=
  ⟨rfl, by decide, by decide⟩

set_option maxRecDepth 1000000 in
/-- C2 (amended): draft 1's load fails with the integrity error exactly when
the checksum field embedded in the parsed repr differs, by strict equality,
from the supplied trusted checksum — no hash of repr is ever recomputed.
Draft 3 does recompute SHA-256 over repr but compares it only after
decryption succeeds and only when the trusted argument is truthy; on a blob
produced by dump, decryption fails first, so even a wrong trusted checksum
yields the decryption error rather than an integrity error. -/
theorem C2_checksum_semantics (pw repr : String) (fs : List (String × Json))
    (trusted : Option String) (h : jsonParse repr = some (.obj fs)) :
    (Keychain1.load pw repr trusted = .error .integrityError ↔
        jsStrictEqOpt (objPropRead fs "checksum") trusted = false) ∧
      Keychain3.load "Correct-Horse9!" scenario3Dump.1
        (some "0000000000000000000000000000000000000000000000000000000000000000")
        [] [] = .error .badDecrypt :=
  ⟨keychain1_load_integrity_iff pw repr fs trusted h, rfl⟩

set_option maxRecDepth 1000000 in
theorem C2_checksum_semantics_witness :
    jsonParse c2Repr = some (.obj c2Fields) ∧
      ((Keychain1.load "pw" c2Repr (some "X") = .error .integrityError ↔
          jsStrictEqOpt (objPropRead c2Fields "checksum") (some "X") = false) ∧
        Keychain3.load "Correct-Horse9!" scenario3Dump.1
          (some "0000000000000000000000000000000000000000000000000000000000000000")
          [] [] = .error .badDecrypt) :=
  ⟨rfl, C2_checksum_semantics "pw" c2Repr c2Fields (some "X") rfl⟩

set_option maxRecDepth 1000000 in
/-- C3 counterexample: draft 1 stores records in cleartext, and for an
array-index domain name such as `"0"` the stored secret is serialized
verbatim — the dumped repr contains the secret `p@ssw0rd` as a substring. -/
theorem C3_counterexample :
    containsSub (Keychain1.dump scenario1Index).1 "p@ssw0rd" = true := rfl

/-- C3 (amended): draft 1's dump drops every record stored under a
non-index, non-`length` domain name — the dump equals the empty store's
dump, so such domains and secrets never appear in it, though only because
the records are lost, not because they are encrypted (secrets under index
names appear verbatim, per the counterexample).  Draft 3's record portion
is hex ciphertext: every character of its `data` field is a hex digit, so
no domain or secret containing a non-hex character appears there. -/
theorem C3_amended_confidentiality (ops : List (String × String)) (pw : String)
    (salt iv : List Nat)
    (h : ∀ p ∈ ops, arrayIndexOf p.1 = none ∧ p.1 ≠ "length") :
    (∃ st', setMany ops (Keychain1.init pw salt iv) = .ok st' ∧
        Keychain1.dump st' = Keychain1.dump (Keychain1.init pw salt iv)) ∧
      ∀ st3 : Keychain3.St,
        (Keychain3.encryptedData st3).data.all (fun c => (hexVal c).isSome) := by
  constructor
  · obtain ⟨props', hp⟩ := setMany_nonindex ops pw salt iv [] [] h
    exact ⟨_, hp, keychain1_dump_props_irrelevant pw salt iv [] [] props'⟩
  · exact keychain3_encryptedData_hex

theorem C3_amended_confidentiality_witness :
    (∀ p ∈ [("example.com", "p@ssw0rd")],
        arrayIndexOf (p : String × String).1 = none ∧ p.1 ≠ "length") ∧
      ((∃ st', setMany [("example.com", "p@ssw0rd")]
            (Keychain1.init "Correct-Horse9!" salt0 iv0) = .ok st' ∧
          Keychain1.dump st' =
            Keychain1.dump (Keychain1.init "Correct-Horse9!" salt0 iv0)) ∧
        ∀ st3 : Keychain3.St,
          (Keychain3.encryptedData st3).data.all (fun c => (hexVal c).isSome)) :=
  ⟨by decide,
    C3_amended_confidentiality [("example.com", "p@ssw0rd")] "Correct-Horse9!"
      salt0 iv0 (by decide)⟩

set_option maxRecDepth 1000000 in
/-- C4: tampering with a single ciphertext byte of the dumped blob does not
produce an `AuthenticationError` at `get` — draft 3's load throws the
generic decryption error already (as it does for the untampered blob too:
the auth tag was never stored, load uses CBC instead of GCM, and the key
is derived from the hex string of the salt).  No `AuthenticationError`
class exists anywhere in the source. -/
theorem C4_tamper_eval :
    Keychain3.load "Correct-Horse9!" tamperedRepr (some scenario3Dump.2) [] [] =
      .error .badDecrypt := rfl

set_option maxRecDepth 1000000 in
/-- C5: a wrong master password is not surfaced as an `AuthenticationError`
at `get`.  Draft 3's load throws the generic decryption error eagerly
during load (for the right password as well).  Draft 1 has no
authentication at all: a well-shaped repr loads under any password and
`get` then returns the stored cleartext secret. -/
theorem C5_wrong_password_eval :
    Keychain3.load "WrongPass1!" scenario3Dump.1 (some scenario3Dump.2) [] [] =
        .error .badDecrypt ∧
      Keychain1.load "totally-wrong-password" craftedRepr none =
        .ok craftedLoadedSt ∧
      Keychain1.get "example.com" craftedLoadedSt =
        .ok (.jval (.str "p@ssw0rd")) :=
  ⟨rfl, rfl, rfl⟩

/-- C6: the set/get round-trip fails in draft 1 for the empty secret (its
`get` uses `|| null`, collapsing a stored `""` to `null`), while draft 3's
round-trip holds for every password, domain, and secret, the empty secret
included. -/
theorem C6_roundtrip :
    Keychain1.get "example.com" scenario1EmptySecret = .ok (.jval .null) ∧
      ∀ (st : Keychain3.St) (name value : String),
        Keychain3.get name (Keychain3.set name value st) = .ok (some value) :=
  ⟨rfl, fun st name value => keychain3_get_set st name value⟩

/-- C7: draft 1's remove is wrong in both directions: on a fresh store
`remove("constructor")` returns `true` though no record exists (the
inherited `Array.prototype.constructor` is truthy), and after
`set(d, "")` `remove(d)` returns `false` and deletes nothing though a
record exists.  Draft 3's remove is correct: the boolean reports exactly
whether a record was present, a `false` result leaves the state untouched,
and a subsequent `get` yields `null`. -/
theorem C7_remove_semantics :
    Keychain1.remove "constructor" scenario1Empty = .ok (true, scenario1Empty) ∧
      Keychain1.remove "example.com" scenario1EmptySecret =
        .ok (false, scenario1EmptySecret) ∧
      ∀ (st : Keychain3.St) (name : String),
        (Keychain3.remove name st).1 =
            (alookup st.data (encodeBuffer (stringToBuffer name))).isSome ∧
          (Keychain3.remove name st).2 =
            (if (alookup st.data (encodeBuffer (stringToBuffer name))).isSome then
              { st with data := aerase st.data (encodeBuffer (stringToBuffer name)) }
            else st) ∧
          Keychain3.get name (Keychain3.remove name st).2 = .ok none :=
  ⟨rfl, rfl, fun st name => keychain3_remove_spec st name⟩

set_option maxRecDepth 1000000 in
/-- C8: the trusted-checksum argument is not optional in practice.  With the
checksum omitted, draft 1's load still fails — a TypeError from
destructuring the `undefined` `serializedData` field (dump's repr has no
such field) — and draft 3's load fails with the generic decryption error.
Neither returns a working store. -/
theorem C8_checksum_optional_eval :
    Keychain1.load "Correct-Horse9!" scenario1Dump.1 none = .error .typeError ∧
      Keychain3.load "Correct-Horse9!" scenario3Dump.1 none [] [] =
        .error .badDecrypt :=
  ⟨rfl, rfl⟩

/-- C9: a freshly initialized draft-1 store is not empty at the public
interface: `get("constructor")` returns the inherited
`Array.prototype.constructor` function — a truthy value that `|| null`
passes through — instead of `null`. -/
theorem C9_fresh_get_constructor :
    Keychain1.get "constructor" scenario1Empty = .ok (.builtin "constructor") ∧
      JsVal.builtin "constructor" ≠ JsVal.jval Json.null :=
  ⟨rfl, fun hh => JsVal.noConfusion hh⟩

/-- C10: `set` and `remove` leave the salt and IV fields bit-for-bit
unchanged in both drafts (`get` is read-only by construction in this
embedding — it returns a value and no state).  Only `init` and `load`
assign those fields. -/
theorem C10_salt_iv_frame (st1 st1' : Keychain1.St) (n1 v1 : String)
    (h1 : Keychain1.set n1 v1 st1 = .ok st1')
    (st1b : Keychain1.St) (n2 : String) (b : Bool) (st1b' : Keychain1.St)
    (h2 : Keychain1.remove n2 st1b = .ok (b, st1b'))
    (st3 : Keychain3.St) (n3 v3 n4 : String) :
    st1'.salt = st1.salt ∧ st1'.iv = st1.iv ∧
      st1b'.salt = st1b.salt ∧ st1b'.iv = st1b.iv ∧
      (Keychain3.set n3 v3 st3).salt = st3.salt ∧
      (Keychain3.set n3 v3 st3).iv = st3.iv ∧
      ((Keychain3.remove n4 st3).2).salt = st3.salt ∧
      ((Keychain3.remove n4 st3).2).iv = st3.iv := by
  obtain ⟨a1, a2, _⟩ := keychain1_set_frame st1 st1' n1 v1 h1
  obtain ⟨b1, b2, _⟩ := keychain1_remove_frame st1b n2 b st1b' h2
  obtain ⟨c1, c2, _⟩ := keychain3_set_frame st3 n3 v3
  obtain ⟨d1, d2, _⟩ := keychain3_remove_frame st3 n4
  exact ⟨a1, a2, b1, b2, c1, c2, d1, d2⟩

theorem C10_salt_iv_frame_witness :
    Keychain1.set "example.com" "" scenario1Empty = .ok scenario1EmptySecret ∧
      Keychain1.remove "constructor" scenario1Empty =
        .ok (true, scenario1Empty) ∧
      (scenario1EmptySecret.salt = scenario1Empty.salt ∧
        scenario1EmptySecret.iv = scenario1Empty.iv ∧
        scenario1Empty.salt = scenario1Empty.salt ∧
        scenario1Empty.iv = scenario1Empty.iv ∧
        (Keychain3.set "example.com" "p@ssw0rd" scenario3).salt = scenario3.salt ∧
        (Keychain3.set "example.com" "p@ssw0rd" scenario3).iv = scenario3.iv ∧
        ((Keychain3.remove "example.com" scenario3).2).salt = scenario3.salt ∧
        ((Keychain3.remove "example.com" scenario3).2).iv = scenario3.iv) :=
  ⟨rfl, rfl,
    C10_salt_iv_frame scenario1Empty scenario1EmptySecret "example.com" "" rfl
      scenario1Empty "constructor" true scenario1Empty rfl
      scenario3 "example.com" "p@ssw0rd" "example.com"⟩
